import Mathlib

/-!
# Verification of the etcd3 `Election` module (`src/election.ts`)

A shallow embedding of the leader-election state machine implemented in
`src/election.ts`. The class's mutable fields become an explicit
`ElectionState` record; each async method becomes a pure function that takes
the current state together with an *environment* record describing the
outcomes the remote etcd store returns at the method's suspension points
(transaction CAS results, lease grants, watch events), and produces the
successor state, an optional raised error, and — where a claim is about
effects — a trace of the store actions the method performs, in order.

Revisions are decimal strings in the source (parsed with `bignumber.js`,
an arbitrary-precision integer library, for arithmetic); the embedding
keeps them as `String` in the state, exactly as the class fields do, and
models the BigNumber arithmetic with Lean's arbitrary-precision `Int`.
-/

/-- Errors raised by the election module.  `notLeader` is
`EtcdNotLeaderError`, `noLeader` is `EtcdNoLeaderError`, `typeError` is the
JavaScript `TypeError` raised by indexing into an empty `kvs` array, and
`store` is an opaque store/transport/watch failure code. -/
inductive Err where
  | notLeader
  | noLeader
  | typeError
  | store (code : Nat)
deriving DecidableEq, Repr

/-- The mutable fields of the `Election` class (`src/election.ts` lines
37-43).  `lease` models the `Lease | null` reference: only its nullness is
observable to the election logic, so it is `Option Unit`. -/
structure ElectionState where
  lease : Option Unit
  leaseId : String
  leaderKey : String
  leaderRevision : String
  isCampaigning : Bool
  isObserving : Bool
deriving DecidableEq, Repr

/-- `get isReady()` (line 47): true when `leaseId` is a non-empty string. -/
def isReady (s : ElectionState) : Bool :=
  s.leaseId.length > 0

/-- `getPrefix()` (lines 151-153): the storage key space of the election,
with `Election.prefix = "election"`. -/
def getPrefix (name : String) : String :=
  "election" ++ "/" ++ name ++ "/"

/-- Environment for `initialize`: the outcome of `lease.grant()`. -/
structure InitEnv where
  grantResult : Except Err String

/-- `initialize()` (lines 59-65).  A no-op when a lease reference is held.
Otherwise the code first assigns the fresh `Lease` object to `this.lease`
and registers the lost listener, and only then awaits `grant()`; so on a
grant failure the state keeps the non-null lease reference while `leaseId`
is unchanged.  The `Bool` component records whether a grant was requested. -/
def initializeElection (env : InitEnv) (s : ElectionState) :
    ElectionState × Option Err × Bool :=
  match s.lease with
  | some _ => (s, none, false)
  | none =>
    match env.grantResult with
    | Except.ok id => ({ s with lease := some (), leaseId := id }, none, true)
    | Except.error e => ({ s with lease := some () }, some e, true)

/-- Environment for `resign`: the CAS outcome of its conditional delete
transaction (`succeeded` field of the commit result). -/
structure ResignEnv where
  txnSucceeded : Bool

/-- `resign()` (lines 117-141).  No-op unless campaigning.  Issues the
conditional delete; on CAS failure, if no lease reference is held it
returns early (line 129) *without* clearing anything, otherwise it revokes
the lease, replaces it with a fresh unfetched lease object and clears
`leaseId`.  When it does not return early it clears `leaderKey`,
`leaderRevision` and `isCampaigning`. -/
def resign (env : ResignEnv) (s : ElectionState) : ElectionState :=
  if !s.isCampaigning then s
  else if env.txnSucceeded then
    { s with leaderKey := "", leaderRevision := "", isCampaigning := false }
  else
    match s.lease with
    | none => s
    | some _ =>
      { s with lease := some (), leaseId := "",
               leaderKey := "", leaderRevision := "", isCampaigning := false }

/-- The transaction request `proclaim` issues (lines 106-109): compare the
candidate key's create revision with `leaderRevision`, and on success put
`value` at the candidate key bound to the session's lease. -/
structure ProclaimTxn where
  cmpKey : String
  cmpCreateRevision : String
  putKey : String
  putValue : String
  putLease : String
deriving DecidableEq, Repr

/-- Environment for `proclaim`: the CAS outcome of its transaction. -/
structure ProclaimEnv where
  txnSucceeded : Bool

/-- `proclaim(value)` (lines 101-115).  Throws `notLeader` without issuing
any transaction when not campaigning; otherwise issues the conditional put
(returned as the third component), and on CAS failure clears `leaderKey`
and throws `notLeader`. -/
def proclaim (env : ProclaimEnv) (value : String) (s : ElectionState) :
    ElectionState × Option Err × Option ProclaimTxn :=
  if !s.isCampaigning then (s, some Err.notLeader, none)
  else
    let txn : ProclaimTxn :=
      { cmpKey := s.leaseId, cmpCreateRevision := s.leaderRevision,
        putKey := s.leaseId, putValue := value, putLease := s.leaseId }
    if env.txnSucceeded then (s, none, some txn)
    else ({ s with leaderKey := "" }, some Err.notLeader, some txn)

/-- The synchronous part of `onLeaseLost` (lines 226-231): when a lease
reference is held, drop it and clear `leaseId`; otherwise leave the state
alone.  Runs before the background `initialize()` attempt. -/
def onLeaseLostSync (s : ElectionState) : ElectionState :=
  match s.lease with
  | some _ => { s with lease := none, leaseId := "" }
  | none => s

/-- `onLeaseLost()` (lines 226-233): drop the lease reference, then attempt
re-initialization; its failure is emitted, not thrown, so it is returned as
the error component. -/
def onLeaseLost (env : InitEnv) (s : ElectionState) :
    ElectionState × Option Err × Bool :=
  initializeElection env (onLeaseLostSync s)

/-- A live candidate key under the election's key space, as the store sees
it: its (namespace-relative) key and its creation revision.  Creation
revisions travel as decimal strings on the wire; the embedding models the
wire value as the integer it denotes. -/
structure Cand where
  key : String
  createRev : Int
deriving DecidableEq, Repr

/-- Insert into a list kept sorted ascending by creation revision. -/
def insertAsc (c : Cand) : List Cand → List Cand
  | [] => [c]
  | d :: ds => if c.createRev ≤ d.createRev then c :: d :: ds else d :: insertAsc c ds

/-- The store's `sort('Create', 'Ascend')` on a range read: the live
candidates ordered by ascending creation revision. -/
def sortByCreateAsc : List Cand → List Cand
  | [] => []
  | c :: cs => insertAsc c (sortByCreateAsc cs)

/-- Insert into a list kept sorted descending by creation revision. -/
def insertDesc (c : Cand) : List Cand → List Cand
  | [] => [c]
  | d :: ds => if c.createRev ≤ d.createRev then d :: insertDesc c ds else c :: d :: ds

/-- The store's `sort('Create', 'Descend')` on a range read. -/
def sortByCreateDesc : List Cand → List Cand
  | [] => []
  | c :: cs => insertDesc c (sortByCreateDesc cs)

/-- Accumulate the value of a run of decimal digits. -/
def decDigitsAux : List Char → Nat → Option Nat
  | [], acc => some acc
  | c :: cs, acc =>
    if c.isDigit then decDigitsAux cs (acc * 10 + (c.toNat - 48)) else none

/-- `new BigNumber(str)` on a revision string: `bignumber.js` reads the
(optionally signed) decimal string into an arbitrary-precision integer,
modelled by `Int`; a non-numeric string becomes `NaN`, which never arises
for a revision and is mapped to `0`. -/
def parseRev (s : String) : Int :=
  match s.data with
  | [] => 0
  | '-' :: cs =>
    match cs, decDigitsAux cs 0 with
    | _ :: _, some n => -(n : Int)
    | _, _ => 0
  | cs =>
    match decDigitsAux cs 0 with
    | some n => (n : Int)
    | none => 0

/-- The `maxCreateRevision` bound `waitForElected` computes (line 157):
`new BigNumber(this.leaderRevision).minus(1)`, in exact integer
arithmetic. -/
def lastRevisionOf (s : ElectionState) : Int :=
  parseRev s.leaderRevision - 1

/-- `waitForElected` (lines 155-171), up to its store query: the keys the
range read `getAll().maxCreateRevision(lastRevision).sort('Create',
'Descend').keys()` returns against a store holding candidates `store`.
These are the keys whose deletion the session then waits for; an empty
result means immediately elected (line 165-167 returns without waiting). -/
def waitForElected (store : List Cand) (s : ElectionState) : List String :=
  let lastRevision := lastRevisionOf s
  (sortByCreateDesc (store.filter fun c => c.createRev ≤ lastRevision)).map Cand.key

/-- `getLeader()` (lines 143-149): reads all candidate keys ascending by
creation revision; raises `noLeader` when there are none, otherwise returns
the election's key space joined with the first key.  Touches no session
state, which is threaded through unchanged. -/
def getLeader (name : String) (store : List Cand) (s : ElectionState) :
    ElectionState × Except Err String :=
  match (sortByCreateAsc store).map Cand.key with
  | [] => (s, Except.error Err.noLeader)
  | k :: _ => (s, Except.ok (getPrefix name ++ k))

/-- A key-value pair as it appears in the `else`-branch range response of
`campaign`'s transaction (line 82): `create_revision` is a decimal string,
`value` a byte buffer rendered by `toString()`. -/
structure RespKV where
  create_revision : String
  value : String
deriving DecidableEq, Repr

/-- The result of `campaign`'s conditional transaction (lines 70-74):
whether the compare succeeded (key was absent and was created), the
response header's store revision, and — when the `else` branch ran — the
`kvs` array of its range response. -/
structure CampaignTxnResult where
  succeeded : Bool
  headerRevision : String
  elseKvs : List RespKV
deriving DecidableEq, Repr

/-- Environment for `campaign`: outcomes of its suspension points, in
order — the lease grant inside `initialize`, the main transaction commit,
the CAS outcome of a nested `proclaim`, the outcome of the wait-for-turn
phase (`none` = all earlier candidates vacated), and the CAS outcome of the
conditional delete inside a cleanup `resign`. -/
structure CampaignEnv where
  grantResult : Except Err String
  commitResult : Except Err CampaignTxnResult
  proclaimTxnSucceeded : Bool
  waitError : Option Err
  resignTxnSucceeded : Bool

/-- The wait-for-turn phase of `campaign` (lines 93-98): on a wait failure,
resign and re-raise.  The `Bool` component records whether `resign()` was
called. -/
def campaignWait (env : CampaignEnv) (s : ElectionState) :
    ElectionState × Option Err × Bool :=
  match env.waitError with
  | some e => (resign ⟨env.resignTxnSucceeded⟩ s, some e, true)
  | none => (s, none, false)

/-- `campaign(value)` (lines 67-99).  Initialize; commit the
create-or-read transaction; record `leaderKey`, `leaderRevision` and
`isCampaigning`; in the `else` branch re-read the existing key (an empty
`kvs` array makes `kvs[0].create_revision` raise a `TypeError`) and
re-proclaim a differing value, resigning and re-raising on any failure in
that branch; finally wait for turn, resigning and re-raising on a wait
failure.  The `Bool` component records whether `resign()` was called. -/
def campaign (name value : String) (env : CampaignEnv) (s : ElectionState) :
    ElectionState × Option Err × Bool :=
  match initializeElection ⟨env.grantResult⟩ s with
  | (s1, some e, _) => (s1, some e, false)
  | (s1, none, _) =>
    match env.commitResult with
    | Except.error e => (s1, some e, false)
    | Except.ok r =>
      let s2 : ElectionState :=
        { s1 with leaderKey := getPrefix name ++ s1.leaseId,
                  leaderRevision := r.headerRevision, isCampaigning := true }
      if r.succeeded then campaignWait env s2
      else
        match r.elseKvs with
        | [] => (resign ⟨env.resignTxnSucceeded⟩ s2, some Err.typeError, true)
        | kv :: _ =>
          let s3 : ElectionState := { s2 with leaderRevision := kv.create_revision }
          if kv.value ≠ value then
            match proclaim ⟨env.proclaimTxnSucceeded⟩ value s3 with
            | (s4, some e, _) => (resign ⟨env.resignTxnSucceeded⟩ s4, some e, true)
            | (s4, none, _) => campaignWait env s4
          else campaignWait env s3

/-- Store actions performed by the deletion waiters and the observation
loop, in the order they are issued. -/
inductive Act where
  | read (k : String)
  | createWatch (k : String)
  | awaitEvent (k : String)
  | cancelWatch (k : String)
  | queryAll
  | createPrefixWatch
  | cancelPrefixWatch
  | emitLeader (k : String)
  | setObs (b : Bool)
  | restart
deriving DecidableEq, Repr

/-- Environment for the deletion waiters: per key, the outcome of creating
a single-key watch, the event that eventually arrives on it (`none` = a
delete notification, `some e` = a watch error), and the point-read
existence check. -/
structure WatchEnv where
  createResult : String → Except Err Unit
  watchOutcome : String → Option Err
  keyExists : String → Bool

/-- `waitForDelete` (lines 242-255): create a watch on exactly `key` (an
attempted creation that fails propagates with no watch to cancel), await
the delete-or-error promise, and cancel the watch in a `finally` before
returning or re-raising. -/
def waitForDelete (env : WatchEnv) (key : String) : List Act × Option Err :=
  match env.createResult key with
  | Except.error e => ([Act.createWatch key], some e)
  | Except.ok _ =>
    ([Act.createWatch key, Act.awaitEvent key, Act.cancelWatch key],
     env.watchOutcome key)

/-- The per-key task loop of `waitForDeletes` (lines 266-279): for each key
in order, a point read; skip the key when it is already gone, otherwise
wait for its deletion; an error stops the loop and propagates. -/
def runDeleteTasks (env : WatchEnv) : List String → List Act × Option Err
  | [] => ([], none)
  | k :: ks =>
    if env.keyExists k then
      match waitForDelete env k with
      | (tr, some e) => (Act.read k :: tr, some e)
      | (tr, none) =>
        match runDeleteTasks env ks with
        | (tr2, e2) => (Act.read k :: (tr ++ tr2), e2)
    else
      match runDeleteTasks env ks with
      | (tr2, e2) => (Act.read k :: tr2, e2)

/-- `waitForDeletes` (lines 257-280): empty list returns at once; a
single-element list delegates directly to `waitForDelete` (no point read);
two or more keys run the sequential task loop. -/
def waitForDeletes (env : WatchEnv) (keys : List String) : List Act × Option Err :=
  match keys with
  | [] => ([], none)
  | [k] => waitForDelete env k
  | _ => runDeleteTasks env keys

/-- Modelled from the spec's words for comparison ("For each key in order:
first confirms the key still exists via a point read (skip immediately if
already gone); otherwise delegates to `waitForDelete`"): the store-action
trace that sequential processing prescribes when every wait resolves. -/
def specSequentialTrace (env : WatchEnv) : List String → List Act
  | [] => []
  | k :: ks =>
    Act.read k ::
      ((if env.keyExists k
        then [Act.createWatch k, Act.awaitEvent k, Act.cancelWatch k]
        else []) ++ specSequentialTrace env ks)

/-- Environment for one run of the observation loop body: the candidate
store contents for its ascending range read, the outcome of creating the
prefix watch when no candidate exists, the first put event arriving on that
watch (or a watch error), the watch environment for the final
`waitForDelete` on the leader key, and the number of registered `leader`
listeners when the body finishes. -/
structure ObserveEnv where
  store : List Cand
  prefixWatchCreate : Except Err Unit
  prefixPutKey : Except Err String
  watchEnv : WatchEnv
  listenerCount : Nat

/-- The leader-discovery part of `observe` (lines 181-198): query all
candidates ascending; when none exists, open a prefix watch and wait for
the first put (cancelling the watch whether a key or an error arrives);
otherwise the first candidate joined onto the key space is the leader. -/
def observeFindLeader (name : String) (env : ObserveEnv) :
    List Act × Except Err String :=
  match (sortByCreateAsc env.store).map Cand.key with
  | k :: _ => ([Act.queryAll], Except.ok (getPrefix name ++ k))
  | [] =>
    match env.prefixWatchCreate with
    | Except.error e => ([Act.queryAll, Act.createPrefixWatch], Except.error e)
    | Except.ok _ =>
      match env.prefixPutKey with
      | Except.ok k =>
        ([Act.queryAll, Act.createPrefixWatch, Act.cancelPrefixWatch], Except.ok k)
      | Except.error e =>
        ([Act.queryAll, Act.createPrefixWatch, Act.cancelPrefixWatch], Except.error e)

/-- `observe()` (lines 173-213).  Returns at once when `isObserving` is
already set; otherwise sets it, runs one loop body (find the leader, emit
it, wait for its key's deletion — `leaderKey` here is a local variable, not
the session field), resets `isObserving` in a `finally` on both the normal
and the error exit, and only then, on the normal exit with a `leader`
listener still registered, re-enters via `tryObserve` (the `restart`
action). -/
def observe (name : String) (env : ObserveEnv) (s : ElectionState) :
    ElectionState × Option Err × List Act :=
  if s.isObserving then (s, none, [])
  else
    match observeFindLeader name env with
    | (tr1, Except.error e) =>
      ({ s with isObserving := false }, some e,
       Act.setObs true :: tr1 ++ [Act.setObs false])
    | (tr1, Except.ok leaderKey) =>
      match waitForDelete env.watchEnv leaderKey with
      | (tr2, some e) =>
        ({ s with isObserving := false }, some e,
         Act.setObs true :: tr1 ++ [Act.emitLeader leaderKey] ++ tr2 ++
           [Act.setObs false])
      | (tr2, none) =>
        ({ s with isObserving := false }, none,
         Act.setObs true :: tr1 ++ [Act.emitLeader leaderKey] ++ tr2 ++
           [Act.setObs false] ++
           (if env.listenerCount > 0 then [Act.restart] else []))

/-! ## Sorting helper lemmas -/

/-- Membership in an ascending insertion. -/
theorem mem_insertAsc (x c : Cand) (l : List Cand) :
    x ∈ insertAsc c l ↔ x = c ∨ x ∈ l := by
  induction l with
  | nil => simp [insertAsc]
  | cons d ds ih =>
    by_cases h : c.createRev ≤ d.createRev
    · simp only [insertAsc, if_pos h, List.mem_cons]
    · simp only [insertAsc, if_neg h, List.mem_cons, ih]
      tauto

/-- Membership in a descending insertion. -/
theorem mem_insertDesc (x c : Cand) (l : List Cand) :
    x ∈ insertDesc c l ↔ x = c ∨ x ∈ l := by
  induction l with
  | nil => simp [insertDesc]
  | cons d ds ih =>
    by_cases h : c.createRev ≤ d.createRev
    · simp only [insertDesc, if_pos h, List.mem_cons, ih]
      tauto
    · simp only [insertDesc, if_neg h, List.mem_cons]

/-- The ascending sort is a permutation membership-wise. -/
theorem mem_sortByCreateAsc (x : Cand) (l : List Cand) :
    x ∈ sortByCreateAsc l ↔ x ∈ l := by
  induction l with
  | nil => simp [sortByCreateAsc]
  | cons c cs ih =>
    simp only [sortByCreateAsc, mem_insertAsc, ih, List.mem_cons]

/-- The descending sort is a permutation membership-wise. -/
theorem mem_sortByCreateDesc (x : Cand) (l : List Cand) :
    x ∈ sortByCreateDesc l ↔ x ∈ l := by
  induction l with
  | nil => simp [sortByCreateDesc]
  | cons c cs ih =>
    simp only [sortByCreateDesc, mem_insertDesc, ih, List.mem_cons]

/-- Ascending insertion preserves ascending pairwise order. -/
theorem pairwise_insertAsc (c : Cand) (l : List Cand)
    (h : List.Pairwise (fun a b => a.createRev ≤ b.createRev) l) :
    List.Pairwise (fun a b => a.createRev ≤ b.createRev) (insertAsc c l) := by
  induction l with
  | nil => simp [insertAsc]
  | cons d ds ih =>
    rcases List.pairwise_cons.1 h with ⟨hd, hds⟩
    by_cases hc : c.createRev ≤ d.createRev
    · simp only [insertAsc, if_pos hc]
      refine List.pairwise_cons.2 ⟨?_, h⟩
      intro x hx
      rcases List.mem_cons.1 hx with rfl | hx'
      · exact hc
      · exact le_trans hc (hd x hx')
    · simp only [insertAsc, if_neg hc]
      refine List.pairwise_cons.2 ⟨?_, ih hds⟩
      intro x hx
      rcases (mem_insertAsc x c ds).1 hx with rfl | hx'
      · omega
      · exact hd x hx'

/-- Descending insertion preserves descending pairwise order. -/
theorem pairwise_insertDesc (c : Cand) (l : List Cand)
    (h : List.Pairwise (fun a b => b.createRev ≤ a.createRev) l) :
    List.Pairwise (fun a b => b.createRev ≤ a.createRev) (insertDesc c l) := by
  induction l with
  | nil => simp [insertDesc]
  | cons d ds ih =>
    rcases List.pairwise_cons.1 h with ⟨hd, hds⟩
    by_cases hc : c.createRev ≤ d.createRev
    · simp only [insertDesc, if_pos hc]
      refine List.pairwise_cons.2 ⟨?_, ih hds⟩
      intro x hx
      rcases (mem_insertDesc x c ds).1 hx with rfl | hx'
      · exact hc
      · exact hd x hx'
    · simp only [insertDesc, if_neg hc]
      refine List.pairwise_cons.2 ⟨?_, h⟩
      intro x hx
      rcases List.mem_cons.1 hx with rfl | hx'
      · omega
      · have := hd x hx'
        omega

/-- The ascending sort is sorted. -/
theorem pairwise_sortByCreateAsc (l : List Cand) :
    List.Pairwise (fun a b => a.createRev ≤ b.createRev) (sortByCreateAsc l) := by
  induction l with
  | nil => simp [sortByCreateAsc]
  | cons c cs ih => exact pairwise_insertAsc c _ ih

/-- The descending sort is sorted. -/
theorem pairwise_sortByCreateDesc (l : List Cand) :
    List.Pairwise (fun a b => b.createRev ≤ a.createRev) (sortByCreateDesc l) := by
  induction l with
  | nil => simp [sortByCreateDesc]
  | cons c cs ih => exact pairwise_insertDesc c _ ih

/-- An insertion is never empty. -/
theorem insertAsc_ne_nil (c : Cand) (l : List Cand) : insertAsc c l ≠ [] := by
  cases l with
  | nil => simp [insertAsc]
  | cons d ds =>
    by_cases h : c.createRev ≤ d.createRev <;> simp [insertAsc, h]

/-- The ascending sort is empty exactly on the empty list. -/
theorem sortByCreateAsc_eq_nil (l : List Cand) :
    sortByCreateAsc l = [] ↔ l = [] := by
  cases l with
  | nil => simp [sortByCreateAsc]
  | cons c cs => simp [sortByCreateAsc, insertAsc_ne_nil]

/-- A descending insertion is never empty. -/
theorem insertDesc_ne_nil (c : Cand) (l : List Cand) : insertDesc c l ≠ [] := by
  cases l with
  | nil => simp [insertDesc]
  | cons d ds =>
    by_cases h : c.createRev ≤ d.createRev <;> simp [insertDesc, h]

/-- The descending sort is empty exactly on the empty list. -/
theorem sortByCreateDesc_eq_nil (l : List Cand) :
    sortByCreateDesc l = [] ↔ l = [] := by
  cases l with
  | nil => simp [sortByCreateDesc]
  | cons c cs => simp [sortByCreateDesc, insertDesc_ne_nil]

/-- The head of the ascending sort has the minimal creation revision. -/
theorem sortByCreateAsc_head_min (store : List Cand) (c : Cand) (rest : List Cand)
    (h : sortByCreateAsc store = c :: rest) :
    ∀ d ∈ store, c.createRev ≤ d.createRev := by
  intro d hd
  have hmem : d ∈ sortByCreateAsc store := (mem_sortByCreateAsc d store).2 hd
  rw [h] at hmem
  rcases List.mem_cons.1 hmem with rfl | hmem'
  · exact le_refl _
  · have hp := pairwise_sortByCreateAsc store
    rw [h] at hp
    exact (List.pairwise_cons.1 hp).1 d hmem'

/-! ## Shared helper lemmas and concrete states -/

/-- A session holding a lease and an established candidacy. -/
def campState : ElectionState :=
  { lease := some (), leaseId := "L", leaderKey := "election/e/L",
    leaderRevision := "7", isCampaigning := true, isObserving := false }

/-- A fresh, uninitialized, non-campaigning session. -/
def idleState : ElectionState :=
  { lease := none, leaseId := "", leaderKey := "", leaderRevision := "",
    isCampaigning := false, isObserving := false }

/-- `resign` clears the candidacy fields whenever its conditional delete
succeeds, or fails while a lease reference is held (so the fallback runs). -/
theorem resign_clears_aux (env : ResignEnv) (s : ElectionState)
    (hc : s.isCampaigning = true) (h : env.txnSucceeded = true ∨ s.lease ≠ none) :
    (resign env s).leaderKey = "" ∧ (resign env s).leaderRevision = "" ∧
    (resign env s).isCampaigning = false := by
  rcases env with ⟨ts⟩
  rcases s with ⟨ls, lid, lk, lr, ic, io⟩
  cases ic
  · simp at hc
  · cases ts
    · rcases h with h | h
      · simp at h
      · cases ls
        · simp at h
        · simp [resign]
    · simp [resign]

/-! ## Claim theorems -/

/-- C3: `proclaim(value)` raises `NotLeaderError` exactly when the session
is not campaigning (then no transaction is issued and the state is
unchanged) or the create-revision CAS against `leaderRevision` fails (then
`leaderKey` is cleared alongside the error); on CAS success it completes
without error, the issued transaction putting `value` at the candidate key
under the session's own lease. -/
theorem proclaim_spec (env : ProclaimEnv) (value : String) (s : ElectionState) :
    ((proclaim env value s).2.1 = some Err.notLeader ↔
      (s.isCampaigning = false ∨ env.txnSucceeded = false))
    ∧ (s.isCampaigning = false →
        proclaim env value s = (s, some Err.notLeader, none))
    ∧ (s.isCampaigning = true → env.txnSucceeded = false →
        (proclaim env value s).1.leaderKey = "" ∧
        (proclaim env value s).2.1 = some Err.notLeader)
    ∧ (s.isCampaigning = true → env.txnSucceeded = true →
        (proclaim env value s).2.1 = none ∧
        (proclaim env value s).2.2 = some
          { cmpKey := s.leaseId, cmpCreateRevision := s.leaderRevision,
            putKey := s.leaseId, putValue := value, putLease := s.leaseId }) := by
  rcases env with ⟨ts⟩
  rcases s with ⟨ls, lid, lk, lr, ic, io⟩
  cases ic <;> cases ts <;> simp [proclaim]

/-- C3 witness: a non-campaigning session gets `notLeader`, no transaction,
no state change. -/
theorem proclaim_spec_witness :
    proclaim ⟨true⟩ "v" idleState = (idleState, some Err.notLeader, none) :=
  (proclaim_spec ⟨true⟩ "v" idleState).2.1 rfl

/-- C4: `getLeader()` never touches the session state and needs no
initialization; it raises `noLeader` exactly when the store holds no
candidate, and otherwise returns the election key space joined with the
first key of the ascending-by-creation-revision sort — a candidate of
minimal creation revision. -/
theorem getLeader_spec (name : String) (store : List Cand) (s : ElectionState) :
    (getLeader name store s).1 = s
    ∧ ((getLeader name store s).2 = Except.error Err.noLeader ↔ store = [])
    ∧ (store ≠ [] → ∃ c rest, sortByCreateAsc store = c :: rest ∧
        c ∈ store ∧
        (getLeader name store s).2 = Except.ok (getPrefix name ++ c.key) ∧
        ∀ d ∈ store, c.createRev ≤ d.createRev) := by
  cases hs : sortByCreateAsc store with
  | nil =>
    have hstore : store = [] := (sortByCreateAsc_eq_nil store).1 hs
    subst hstore
    simp [getLeader, sortByCreateAsc]
  | cons c rest =>
    have hne : store ≠ [] := by
      intro h0
      subst h0
      simp [sortByCreateAsc] at hs
    refine ⟨?_, ?_, ?_⟩
    · simp [getLeader, hs]
    · simp [getLeader, hs, hne]
    · intro _
      refine ⟨c, rest, rfl, ?_, ?_, ?_⟩
      · exact (mem_sortByCreateAsc c store).1 (hs ▸ List.mem_cons_self c rest)
      · simp [getLeader, hs]
      · exact sortByCreateAsc_head_min store c rest hs

/-- C4 witness: an empty candidate set raises `noLeader` from an
uninitialized session. -/
theorem getLeader_spec_witness :
    (getLeader "e" [] idleState).2 = Except.error Err.noLeader :=
  ((getLeader_spec "e" [] idleState).2.1).2 rfl

/-- The one branch of `resign` outside the succeed-or-fallback dichotomy:
when the conditional delete fails while the lease reference is null, the
fallback cannot run and `resign` returns early with `leaderKey`,
`leaderRevision` and `isCampaigning` all intact.  (The class only reaches
a null lease reference while campaigning if constructing the replacement
lease object itself throws.) -/
theorem resign_early_return_example :
    ({ lease := none, leaseId := "", leaderKey := "election/e/L",
       leaderRevision := "7", isCampaigning := true,
       isObserving := false } : ElectionState).isCampaigning = true ∧
    (resign ⟨false⟩
      { lease := none, leaseId := "", leaderKey := "election/e/L",
        leaderRevision := "7", isCampaigning := true,
        isObserving := false }).isCampaigning = true ∧
    (resign ⟨false⟩
      { lease := none, leaseId := "", leaderKey := "election/e/L",
        leaderRevision := "7", isCampaigning := true,
        isObserving := false }).leaderKey ≠ "" ∧
    (resign ⟨false⟩
      { lease := none, leaseId := "", leaderKey := "election/e/L",
        leaderRevision := "7", isCampaigning := true,
        isObserving := false }).leaderRevision ≠ "" := by
  decide

/-- C2: for every `resign()` call while campaigning — whether the
conditional delete transaction succeeds or its fallback (lease revocation
and replacement) runs, which together cover every call holding a lease
reference — `resign` terminates with `leaderKey` and `leaderRevision`
cleared to the empty string and `isCampaigning` false.  The second
conjunct records the one case outside that dichotomy: a CAS failure with a
null lease reference returns early with the state unchanged. -/
theorem resign_spec (env : ResignEnv) (s : ElectionState)
    (hc : s.isCampaigning = true) :
    ((env.txnSucceeded = true ∨ s.lease ≠ none) →
       (resign env s).leaderKey = "" ∧ (resign env s).leaderRevision = "" ∧
       (resign env s).isCampaigning = false)
    ∧ (env.txnSucceeded = false → s.lease = none → resign env s = s) := by
  constructor
  · exact fun h => resign_clears_aux env s hc h
  · intro ht hl
    rcases env with ⟨ts⟩
    rcases s with ⟨ls, lid, lk, lr, ic, io⟩
    simp only at ht hl
    subst ht
    subst hl
    simp only at hc
    subst hc
    simp [resign]

/-- C2 witness: the successful-delete path on a campaigning session clears
all three fields. -/
theorem resign_spec_witness :
    (resign ⟨true⟩ campState).leaderKey = "" ∧
    (resign ⟨true⟩ campState).leaderRevision = "" ∧
    (resign ⟨true⟩ campState).isCampaigning = false :=
  (resign_spec ⟨true⟩ campState rfl).1 (Or.inl rfl)

/-- C9: after `resign`'s fallback path (conditional delete failed while a
lease reference was held), the session holds a non-null, never-granted
lease reference with an empty `leaseId`: `isReady` is false, and every
later `initialize()` is a no-op that requests no grant and leaves the state
— hence the unreadiness — untouched.  Only `onLeaseLost`, which nulls the
lease reference, makes `initialize` grant again and restore readiness. -/
theorem resign_fallback_blocks_reinit (env : ResignEnv) (ienv : InitEnv)
    (s : ElectionState) (hc : s.isCampaigning = true) (hl : s.lease = some ())
    (ht : env.txnSucceeded = false) :
    (resign env s).leaseId = "" ∧
    (resign env s).lease = some () ∧
    isReady (resign env s) = false ∧
    initializeElection ienv (resign env s) = (resign env s, none, false) ∧
    (onLeaseLostSync (resign env s)).lease = none ∧
    (∀ id, ienv.grantResult = Except.ok id → 0 < id.length →
      (initializeElection ienv (onLeaseLostSync (resign env s))).2.2 = true ∧
      isReady (initializeElection ienv (onLeaseLostSync (resign env s))).1 = true) := by
  rcases env with ⟨ts⟩
  rcases s with ⟨ls, lid, lk, lr, ic, io⟩
  simp only at hc hl ht
  subst hc
  subst hl
  subst ht
  refine ⟨by simp [resign], by simp [resign], by simp [resign, isReady],
          by simp [resign, initializeElection], by simp [resign, onLeaseLostSync],
          ?_⟩
  intro id hg hlen
  simp [resign, onLeaseLostSync, initializeElection, hg, isReady, hlen]

/-- C9 witness: the fallback on a campaigning, lease-holding session leaves
it unready and blocks the following `initialize`. -/
theorem resign_fallback_blocks_reinit_witness :
    (resign ⟨false⟩ campState).leaseId = "" ∧
    isReady (resign ⟨false⟩ campState) = false ∧
    initializeElection ⟨Except.ok "L2"⟩ (resign ⟨false⟩ campState) =
      (resign ⟨false⟩ campState, none, false) := by
  have h := resign_fallback_blocks_reinit ⟨false⟩ ⟨Except.ok "L2"⟩ campState
    rfl rfl rfl
  exact ⟨h.1, h.2.2.1, h.2.2.2.1⟩

/-- C10: the lease-lost handler touches only the lease reference (nulled)
and `leaseId` (cleared) before its background re-initialization;
`leaderKey`, `leaderRevision` and `isCampaigning` survive both the
synchronous part and the re-initialization, so a session campaigning at the
moment of lease loss still reports `isCampaigning = true` afterwards. -/
theorem onLeaseLost_frame (env : InitEnv) (s : ElectionState) :
    ((onLeaseLostSync s).leaderKey = s.leaderKey ∧
     (onLeaseLostSync s).leaderRevision = s.leaderRevision ∧
     (onLeaseLostSync s).isCampaigning = s.isCampaigning ∧
     (onLeaseLostSync s).isObserving = s.isObserving)
    ∧ (s.lease ≠ none →
        (onLeaseLostSync s).lease = none ∧ (onLeaseLostSync s).leaseId = "")
    ∧ ((onLeaseLost env s).1.leaderKey = s.leaderKey ∧
       (onLeaseLost env s).1.leaderRevision = s.leaderRevision ∧
       (onLeaseLost env s).1.isCampaigning = s.isCampaigning)
    ∧ (s.isCampaigning = true → (onLeaseLost env s).1.isCampaigning = true) := by
  rcases env with ⟨gr⟩
  rcases s with ⟨ls, lid, lk, lr, ic, io⟩
  cases ls <;> cases gr <;>
    simp [onLeaseLost, onLeaseLostSync, initializeElection]

/-- C10 witness: a campaigning session still reports `isCampaigning` after
a lease loss followed by a successful background re-grant. -/
theorem onLeaseLost_frame_witness :
    (onLeaseLost ⟨Except.ok "L2"⟩ campState).1.isCampaigning = true :=
  (onLeaseLost_frame ⟨Except.ok "L2"⟩ campState).2.2.2 rfl

/-- C5: the wait-for-turn query of `campaign` selects exactly the candidate
keys whose creation revision is strictly below the session's
`leaderRevision`: the `maxCreateRevision` bound is the revision minus one
in exact arbitrary-precision integer arithmetic, the result is sorted by
creation revision descending, and an empty result means the session is
immediately elected (the sequential delete wait degenerates to no actions
and no error). -/
theorem waitForElected_spec (store : List Cand) (s : ElectionState) (n : Int)
    (h : parseRev s.leaderRevision = n) :
    lastRevisionOf s = n - 1
    ∧ waitForElected store s =
        (sortByCreateDesc (store.filter fun c => c.createRev < n)).map Cand.key
    ∧ (waitForElected store s = [] ↔ ∀ c ∈ store, ¬ c.createRev < n)
    ∧ List.Pairwise (fun a b => b.createRev ≤ a.createRev)
        (sortByCreateDesc (store.filter fun c => c.createRev < n))
    ∧ (∀ wenv : WatchEnv, waitForElected store s = [] →
        waitForDeletes wenv (waitForElected store s) = ([], none)) := by
  have hb : lastRevisionOf s = n - 1 := by
    simp [lastRevisionOf, h]
  have hfilter : (store.filter fun c => c.createRev ≤ lastRevisionOf s) =
      (store.filter fun c => c.createRev < n) := by
    refine List.filter_congr ?_
    intro x _
    simp only [decide_eq_decide]
    omega
  have hmain : waitForElected store s =
      (sortByCreateDesc (store.filter fun c => c.createRev < n)).map Cand.key := by
    simp only [waitForElected, hfilter]
  refine ⟨hb, hmain, ?_, pairwise_sortByCreateDesc _, ?_⟩
  · rw [hmain]
    simp [List.map_eq_nil_iff, sortByCreateDesc_eq_nil, List.filter_eq_nil_iff]
  · intro wenv he
    rw [he]
    rfl

/-- C5 witness: with `leaderRevision = "7"`, candidates at revisions 3 and 7
are split at the bound 6: only the earlier one is waited for, and with no
earlier candidate the result is empty. -/
theorem waitForElected_spec_witness :
    lastRevisionOf campState = 6 ∧
    waitForElected [⟨"a", 3⟩, ⟨"b", 7⟩] campState = ["a"] ∧
    waitForElected [⟨"b", 7⟩] campState = [] := by
  have h := waitForElected_spec [⟨"a", 3⟩, ⟨"b", 7⟩] campState 7 (by decide)
  refine ⟨by simpa using h.1, ?_, ?_⟩
  · rw [h.2.1]
    decide
  · have h2 := waitForElected_spec [⟨"b", 7⟩] campState 7 (by decide)
    rw [h2.2.1]
    decide

/-- The task loop realizes the sequential per-key trace when watch creation
succeeds and every wait resolves with a delete notification. -/
theorem runDeleteTasks_ok (env : WatchEnv)
    (hcr : ∀ k, env.createResult k = Except.ok ())
    (hw : ∀ k, env.watchOutcome k = none) :
    ∀ ks, runDeleteTasks env ks = (specSequentialTrace env ks, none) := by
  intro ks
  induction ks with
  | nil => rfl
  | cons k ks ih =>
    by_cases hk : env.keyExists k = true
    · simp [runDeleteTasks, specSequentialTrace, hk, waitForDelete, hcr k, hw k, ih]
    · simp only [Bool.not_eq_true] at hk
      simp [runDeleteTasks, specSequentialTrace, hk, ih]

/-- C6: `waitForDeletes` resolves at once on the empty list; a
single-element list is a direct delegation to `waitForDelete` (no point
read); and on two or more keys it walks the keys strictly in order, for
each key first issuing a point read, skipping a vanished key immediately
and otherwise waiting out the single-key watch, moving to the next key only
after that wait resolves — the whole run produces exactly the sequential
per-key trace. -/
theorem waitForDeletes_spec (env : WatchEnv)
    (hcr : ∀ k, env.createResult k = Except.ok ())
    (hw : ∀ k, env.watchOutcome k = none) :
    waitForDeletes env [] = ([], none)
    ∧ (∀ k, waitForDeletes env [k] = waitForDelete env k)
    ∧ (∀ k, waitForDeletes env [k] =
        ([Act.createWatch k, Act.awaitEvent k, Act.cancelWatch k], none))
    ∧ (∀ a b l, waitForDeletes env (a :: b :: l) =
        (specSequentialTrace env (a :: b :: l), none)) := by
  refine ⟨rfl, fun k => rfl, fun k => by simp [waitForDeletes, waitForDelete, hcr k, hw k],
         fun a b l => ?_⟩
  have hdel : waitForDeletes env (a :: b :: l) = runDeleteTasks env (a :: b :: l) := rfl
  rw [hdel, runDeleteTasks_ok env hcr hw]

/-- C6 witness: two keys, of which the first is already gone: a read and a
skip for the first, then a read and a full watch cycle for the second. -/
theorem waitForDeletes_spec_witness :
    waitForDeletes
      ⟨fun _ => Except.ok (), fun _ => none, fun k => k ≠ "a"⟩ ["a", "b"] =
      ([Act.read "a", Act.read "b", Act.createWatch "b", Act.awaitEvent "b",
        Act.cancelWatch "b"], none) := by
  have h := (waitForDeletes_spec
      ⟨fun _ => Except.ok (), fun _ => none, fun k => k ≠ "a"⟩
      (fun _ => rfl) (fun _ => rfl)).2.2.2 "a" "b" []
  rw [h]
  decide

/-- C7: every `waitForDelete` call whose single-key watch opens
successfully cancels that watch on both exit paths: the trace is always
create–await–cancel with the cancellation last, and the call's outcome is
exactly the watch's event — success on a delete notification, the re-raised
error on a watch error. -/
theorem waitForDelete_cancels (env : WatchEnv) (k : String)
    (h : env.createResult k = Except.ok ()) :
    (waitForDelete env k).1 =
      [Act.createWatch k, Act.awaitEvent k, Act.cancelWatch k]
    ∧ (waitForDelete env k).2 = env.watchOutcome k
    ∧ (waitForDelete env k).1.getLast? = some (Act.cancelWatch k) := by
  have h1 : waitForDelete env k =
      ([Act.createWatch k, Act.awaitEvent k, Act.cancelWatch k],
       env.watchOutcome k) := by
    simp [waitForDelete, h]
  rw [h1]
  exact ⟨rfl, rfl, rfl⟩

/-- C7 witness: even when the watch reports an error that `waitForDelete`
re-raises, the watch is cancelled, as the last action before propagating. -/
theorem waitForDelete_cancels_witness :
    (waitForDelete ⟨fun _ => Except.ok (), fun _ => some (Err.store 1),
        fun _ => true⟩ "a").2 = some (Err.store 1) ∧
    (waitForDelete ⟨fun _ => Except.ok (), fun _ => some (Err.store 1),
        fun _ => true⟩ "a").1.getLast? = some (Act.cancelWatch "a") := by
  have h := waitForDelete_cancels
    ⟨fun _ => Except.ok (), fun _ => some (Err.store 1), fun _ => true⟩ "a" rfl
  exact ⟨h.2.1, h.2.2⟩

/-- The trace of a `waitForDelete` call is one of two shapes. -/
theorem waitForDelete_trace (env : WatchEnv) (k : String) :
    (waitForDelete env k).1 = [Act.createWatch k] ∨
    (waitForDelete env k).1 =
      [Act.createWatch k, Act.awaitEvent k, Act.cancelWatch k] := by
  unfold waitForDelete
  cases env.createResult k <;> simp

/-- The trace of the leader-discovery step is one of three shapes. -/
theorem observeFindLeader_trace (name : String) (env : ObserveEnv) :
    (observeFindLeader name env).1 = [Act.queryAll] ∨
    (observeFindLeader name env).1 = [Act.queryAll, Act.createPrefixWatch] ∨
    (observeFindLeader name env).1 =
      [Act.queryAll, Act.createPrefixWatch, Act.cancelPrefixWatch] := by
  unfold observeFindLeader
  cases (sortByCreateAsc env.store).map Cand.key with
  | cons k ks => simp
  | nil =>
    cases env.prefixWatchCreate with
    | error e => simp
    | ok u => cases env.prefixPutKey <;> simp

/-- C8: at most one observation loop runs per session.  When `isObserving`
is already set, `observe` returns at once with no error, no state change
and no actions.  Otherwise the trace brackets one loop body between setting
`isObserving` and resetting it — the reset happens on the error exit as
well as the normal one, no other observing-flag change occurs inside the
body, and any restart attempt comes only after the reset, on the normal
exit with a listener still registered. -/
theorem observe_guard (name : String) (env : ObserveEnv) (s : ElectionState) :
    (s.isObserving = true → observe name env s = (s, none, []))
    ∧ (s.isObserving = false →
        (observe name env s).1.isObserving = false ∧
        ∃ tr, (observe name env s).2.2 =
            Act.setObs true :: tr ++ [Act.setObs false] ++
              (if (observe name env s).2.1 = none ∧ 0 < env.listenerCount
               then [Act.restart] else [])
          ∧ (∀ b, Act.setObs b ∉ tr) ∧ Act.restart ∉ tr) := by
  constructor
  · intro h
    simp [observe, h]
  · intro h
    rcases hf : observeFindLeader name env with ⟨tr1, res⟩
    have htr1 : tr1 = [Act.queryAll] ∨ tr1 = [Act.queryAll, Act.createPrefixWatch] ∨
        tr1 = [Act.queryAll, Act.createPrefixWatch, Act.cancelPrefixWatch] := by
      have := observeFindLeader_trace name env
      rw [hf] at this
      simpa using this
    cases res with
    | error e =>
      have hob : observe name env s =
          ({ s with isObserving := false }, some e,
           Act.setObs true :: tr1 ++ [Act.setObs false]) := by
        simp [observe, h, hf]
      rw [hob]
      refine ⟨rfl, tr1, by simp, ?_, ?_⟩
      · intro b
        rcases htr1 with rfl | rfl | rfl <;> simp
      · rcases htr1 with rfl | rfl | rfl <;> simp
    | ok lk =>
      rcases hw : waitForDelete env.watchEnv lk with ⟨tr2, e2⟩
      have htr2 : tr2 = [Act.createWatch lk] ∨
          tr2 = [Act.createWatch lk, Act.awaitEvent lk, Act.cancelWatch lk] := by
        have := waitForDelete_trace env.watchEnv lk
        rw [hw] at this
        simpa using this
      cases e2 with
      | some e =>
        have hob : observe name env s =
            ({ s with isObserving := false }, some e,
             Act.setObs true :: tr1 ++ [Act.emitLeader lk] ++ tr2 ++
               [Act.setObs false]) := by
          simp [observe, h, hf, hw]
        rw [hob]
        refine ⟨rfl, tr1 ++ [Act.emitLeader lk] ++ tr2, by simp, ?_, ?_⟩
        · intro b
          rcases htr1 with rfl | rfl | rfl <;> rcases htr2 with rfl | rfl <;> simp
        · rcases htr1 with rfl | rfl | rfl <;> rcases htr2 with rfl | rfl <;> simp
      | none =>
        have hob : observe name env s =
            ({ s with isObserving := false }, none,
             Act.setObs true :: tr1 ++ [Act.emitLeader lk] ++ tr2 ++
               [Act.setObs false] ++
               (if 0 < env.listenerCount then [Act.restart] else [])) := by
          simp [observe, h, hf, hw]
        rw [hob]
        refine ⟨rfl, tr1 ++ [Act.emitLeader lk] ++ tr2, by simp, ?_, ?_⟩
        · intro b
          rcases htr1 with rfl | rfl | rfl <;> rcases htr2 with rfl | rfl <;> simp
        · rcases htr1 with rfl | rfl | rfl <;> rcases htr2 with rfl | rfl <;> simp

/-- C8 witness: on a non-observing session the loop body runs and ends with
the observing flag reset. -/
theorem observe_guard_witness :
    (observe "e"
      { store := [⟨"a", 3⟩], prefixWatchCreate := Except.ok (),
        prefixPutKey := Except.ok "x",
        watchEnv := ⟨fun _ => Except.ok (), fun _ => none, fun _ => true⟩,
        listenerCount := 1 } idleState).1.isObserving = false :=
  ((observe_guard "e"
      { store := [⟨"a", 3⟩], prefixWatchCreate := Except.ok (),
        prefixPutKey := Except.ok "x",
        watchEnv := ⟨fun _ => Except.ok (), fun _ => none, fun _ => true⟩,
        listenerCount := 1 } idleState).2 rfl).1

/-- `resign` on a campaigning session that holds a lease reference always
ends non-campaigning. -/
theorem resign_not_campaigning (env : ResignEnv) (t : ElectionState)
    (hc : t.isCampaigning = true) (hl : t.lease = some ()) :
    (resign env t).isCampaigning = false :=
  (resign_clears_aux env t hc (Or.inr (by rw [hl]; simp))).2.2

/-- A failing wait-for-turn phase resigns (on a campaigning, lease-holding
session this clears the campaigning flag) and re-raises. -/
theorem campaignWait_cleanup (env : CampaignEnv) (s : ElectionState)
    (hc : s.isCampaigning = true) (hl : s.lease = some ()) :
    (campaignWait env s).2.1 ≠ none →
    (campaignWait env s).2.2 = true ∧
    (campaignWait env s).1.isCampaigning = false := by
  unfold campaignWait
  cases hwe : env.waitError with
  | none => simp
  | some e =>
    intro _
    exact ⟨rfl, resign_not_campaigning ⟨env.resignTxnSucceeded⟩ s hc hl⟩

/-- C1: once `campaign` is past lease acquisition and its main transaction
commit (the failures the claim scopes: reading the existing key or
re-proclaiming in the `else` branch, and the wait-for-turn phase), every
raised failure is preceded by a `resign()` cleanup, and the session ends
not campaigning. -/
theorem campaign_cleanup (name value : String) (env : CampaignEnv)
    (s : ElectionState)
    (hg : s.lease ≠ none ∨ ∃ id, env.grantResult = Except.ok id)
    (hcommit : ∃ r, env.commitResult = Except.ok r) :
    (campaign name value env s).2.1 ≠ none →
    (campaign name value env s).2.2 = true ∧
    (campaign name value env s).1.isCampaigning = false := by
  obtain ⟨r, hr⟩ := hcommit
  rcases r with ⟨rsuc, rrev, rkvs⟩
  obtain ⟨s1, b, hinit, hl1⟩ :
      ∃ s1 b, initializeElection ⟨env.grantResult⟩ s = (s1, none, b) ∧
        s1.lease = some () := by
    cases hls : s.lease with
    | some u =>
      exact ⟨s, false, by simp [initializeElection, hls], by rw [hls]⟩
    | none =>
      rcases hg with hg | ⟨id, hid⟩
      · exact absurd hls hg
      · exact ⟨{ s with lease := some (), leaseId := id }, true,
          by simp [initializeElection, hls, hid], rfl⟩
  simp only [campaign, hinit, hr]
  cases rsuc with
  | true =>
    exact campaignWait_cleanup env _ rfl hl1
  | false =>
    cases rkvs with
    | nil =>
      intro _
      exact ⟨rfl, resign_not_campaigning ⟨env.resignTxnSucceeded⟩ _ rfl hl1⟩
    | cons kv rest =>
      by_cases hv : kv.value = value
      · simp only [hv, ne_eq, not_true_eq_false, if_false]
        exact campaignWait_cleanup env _ rfl hl1
      · simp only [proclaim, ne_eq, hv, not_false_eq_true, if_true,
          Bool.not_eq_true]
        cases hp : env.proclaimTxnSucceeded with
        | true =>
          simp only [Bool.not_true, if_true]
          exact campaignWait_cleanup env _ rfl hl1
        | false =>
          simp only [Bool.not_true, if_false]
          intro _
          exact ⟨rfl, resign_not_campaigning ⟨env.resignTxnSucceeded⟩ _ rfl hl1⟩

/-- C1 witness: an `else`-branch read that yields an empty `kvs` array
raises, and afterwards the session is not campaigning and `resign` was
called. -/
theorem campaign_cleanup_witness :
    (campaign "e" "v"
      { grantResult := Except.ok "L1",
        commitResult := Except.ok ⟨false, "10", []⟩,
        proclaimTxnSucceeded := true, waitError := none,
        resignTxnSucceeded := true } idleState).2.2 = true ∧
    (campaign "e" "v"
      { grantResult := Except.ok "L1",
        commitResult := Except.ok ⟨false, "10", []⟩,
        proclaimTxnSucceeded := true, waitError := none,
        resignTxnSucceeded := true } idleState).1.isCampaigning = false :=
  campaign_cleanup "e" "v"
    { grantResult := Except.ok "L1",
      commitResult := Except.ok ⟨false, "10", []⟩,
      proclaimTxnSucceeded := true, waitError := none,
      resignTxnSucceeded := true } idleState
    (Or.inr ⟨"L1", rfl⟩) ⟨⟨false, "10", []⟩, rfl⟩ (by decide)
